import Mathlib

/-!
Verification of the caption-conversion core of `DownloadYTCaptions.py`:
the YouTube timed-text XML parser (`parse_youtube_xml_captions`) and the
SRT renderer (`convert_to_srt` / `format_time`).

The Python code is shallowly embedded: XML documents are modelled as the
element tree that `xml.etree.ElementTree.fromstring` produces, Python
floats as exact rationals (ℚ), Python `int(str)` coercion as a partial
function `pyInt`, and the exception raised on a failed coercion as the
`Except` error `MalformedInputError`.
-/

/-! ## Python string and number primitives -/

/-- Characters stripped by Python's `str.strip()` (ASCII whitespace). -/
def isPySpace (c : Char) : Bool :=
  c == ' ' || c == '\t' || c == '\n' || c == '\x0d' || c == '\x0b' || c == '\x0c'

/-- Strip leading and trailing whitespace from a character list. -/
def pyStripList (l : List Char) : List Char :=
  ((l.dropWhile isPySpace).reverse.dropWhile isPySpace).reverse

/-- Python `str.strip()`. -/
def pyStrip (s : String) : String := String.mk (pyStripList s.data)

/-- Value of a non-empty all-digit character list, `none` otherwise. -/
def decDigitsVal? : List Char → Option Nat
  | [] => none
  | ds =>
    if ds.all Char.isDigit then
      some (ds.foldl (fun a c => a * 10 + (c.toNat - 48)) 0)
    else none

/-- Python `int(s)` on a string: optional surrounding whitespace, optional
sign, then decimal digits; `none` models the `ValueError` raised otherwise.
(Underscore digit grouping, accepted by Python between digits, is not
modelled; no input in question contains it.) -/
def pyInt (s : String) : Option Int :=
  match pyStripList s.data with
  | '+' :: ds => (decDigitsVal? ds).map Int.ofNat
  | '-' :: ds => (decDigitsVal? ds).map (fun n => -(n : Int))
  | ds => (decDigitsVal? ds).map Int.ofNat

/-- Decimal digits of a natural number, most significant first; the first
argument is recursion fuel (any fuel `> n / 10 ...` large enough, we always
pass `n + 1`). -/
def pyNatDigits : Nat → Nat → List Char
  | 0, _ => []
  | fuel + 1, n =>
    if n < 10 then [Char.ofNat (48 + n)]
    else pyNatDigits fuel (n / 10) ++ [Char.ofNat (48 + n % 10)]

/-- Python `str(n)` for a natural number. -/
def pyShowNat (n : Nat) : String := String.mk (pyNatDigits (n + 1) n)

/-- Python's `f"{n:0wd}"`: decimal rendering zero-padded to width `w`
(the sign, if any, counts toward the width). -/
def pyZeroPad (w : Nat) (n : Int) : String :=
  if n < 0 then
    String.mk ('-' :: (List.replicate ((w - 1) - (pyNatDigits (n.natAbs + 1) n.natAbs).length) '0'
      ++ pyNatDigits (n.natAbs + 1) n.natAbs))
  else
    String.mk (List.replicate (w - (pyNatDigits (n.toNat + 1) n.toNat).length) '0'
      ++ pyNatDigits (n.toNat + 1) n.toNat)

/-- Python `int(x)` on a number: truncation toward zero. -/
def pyTrunc (q : ℚ) : Int := if 0 ≤ q then ⌊q⌋ else -⌊-q⌋

/-- Python `x // y` on floats (exact-rational model): floor division. -/
def pyFloorDiv (a b : ℚ) : ℚ := (⌊a / b⌋ : ℤ)

/-- Python `x % y` on floats (exact-rational model): `a - b * (a // b)`. -/
def pyMod (a b : ℚ) : ℚ := a - b * (⌊a / b⌋ : ℤ)

/-- Python `' '.join(parts)`. -/
def pyJoinSpace : List String → String
  | [] => ""
  | [s] => s
  | s :: rest => s ++ " " ++ pyJoinSpace rest

/-! ## XML element model

An element of `xml.etree.ElementTree`: tag, attributes, the text run
before the first child (`.text`), the child elements, and the text run
following the element inside its parent (`.tail`). -/

structure XmlElement where
  tag : String
  attrs : List (String × String)
  text : Option String
  children : List XmlElement
  tail : Option String

/-- Python `elem.get(key)`: attribute lookup. -/
def XmlElement.get (e : XmlElement) (key : String) : Option String :=
  e.attrs.lookup key

/-- Model of `root.findall('.//tag')`, run on a list of sibling elements: every
element tagged `tag` at any depth, in document order. -/
def findTagList (tag : String) : List XmlElement → List XmlElement
  | [] => []
  | XmlElement.mk t a tx ch tl :: cs =>
    (if t == tag then [XmlElement.mk t a tx ch tl] else []) ++
      findTagList tag ch ++ findTagList tag cs

/-- All descendant elements of a sibling list, in document order. -/
def descendantsL : List XmlElement → List XmlElement
  | [] => []
  | XmlElement.mk t a tx ch tl :: cs =>
    XmlElement.mk t a tx ch tl :: (descendantsL ch ++ descendantsL cs)

/-! ## The parser -/

/-- The exception kind raised by `parse` when a present timing attribute
fails integer coercion (Python's `ValueError` from `int()`). -/
inductive MalformedInputError where
  | malformed
deriving DecidableEq

/-- One parsed caption: the dictionary
`{'start_time': ..., 'end_time': ..., 'text': ...}` built by the parser. -/
structure CaptionRecord where
  start_time : ℚ
  end_time : ℚ
  text : String
deriving DecidableEq

/-- Model of `int(elem.get('t', 0))`: the start-offset coercion of a cue.
An absent attribute defaults to the integer `0`; a present value goes
through `int()` and a failure raises. -/
def cueStartMs (elem : XmlElement) : Except MalformedInputError Int :=
  match elem.get "t" with
  | none => .ok 0
  | some v =>
    match pyInt v with
    | some n => .ok n
    | none => .error .malformed

/-- Model of `int(elem.get('d', 0)) / 1000 if elem.get('d') else 0`, numerator part:
the duration coercion of a cue. An absent attribute and a *falsy* (empty
string) value both yield `0`; any other value goes through `int()`. -/
def cueDurMs (elem : XmlElement) : Except MalformedInputError Int :=
  match elem.get "d" with
  | none => .ok 0
  | some v =>
    if v = "" then .ok 0
    else
      match pyInt v with
      | some n => .ok n
      | none => .error .malformed

/-- The texts of the direct `s`-children of a cue, each `s_elem.text or ''`
then `.strip()`-ped (`text_parts` in the source). -/
def cueTextParts (elem : XmlElement) : List String :=
  (elem.children.filter (fun c => c.tag == "s")).map (fun s => pyStrip (s.text.getD ""))

/-- Value of `' '.join(text_parts).strip()` (`full_text` in the source). -/
def cueFullText (elem : XmlElement) : String :=
  pyStrip (pyJoinSpace (cueTextParts elem))

/-- The loop body of `parse_youtube_xml_captions` for one cue element:
`none` when the cue is discarded for empty text, `some record` otherwise,
an error when a timing coercion fails. -/
def parseCue (elem : XmlElement) : Except MalformedInputError (Option CaptionRecord) := do
  let t_ms ← cueStartMs elem
  let d_ms ← cueDurMs elem
  let start_time : ℚ := (t_ms : ℚ) / 1000
  let duration : ℚ := (d_ms : ℚ) / 1000
  let full_text := cueFullText elem
  if full_text = "" then pure none
  else pure (some ⟨start_time, start_time + duration, full_text⟩)

/-- The loop of `parse_youtube_xml_captions` over the located cues. -/
def parseCues : List XmlElement → Except MalformedInputError (List CaptionRecord)
  | [] => .ok []
  | e :: es => do
    let r ← parseCue e
    let rest ← parseCues es
    match r with
    | none => pure rest
    | some c => pure (c :: rest)

/-- The function `parse_youtube_xml_captions`, on the element tree of the document. -/
def parse_youtube_xml_captions (root : XmlElement) :
    Except MalformedInputError (List CaptionRecord) :=
  parseCues (findTagList "p" root.children)

/-! ## The renderer -/

/-- The helper `format_time` from `convert_to_srt`. -/
def format_time (seconds : ℚ) : String :=
  let hours : Int := pyTrunc (pyFloorDiv seconds 3600)
  let minutes : Int := pyTrunc (pyFloorDiv (pyMod seconds 3600) 60)
  let secs : Int := pyTrunc (pyMod seconds 60)
  let millisecs : Int := pyTrunc ((seconds - (pyTrunc seconds : ℚ)) * 1000)
  pyZeroPad 2 hours ++ ":" ++ pyZeroPad 2 minutes ++ ":" ++ pyZeroPad 2 secs
    ++ "," ++ pyZeroPad 3 millisecs

/-- The SRT block of caption `i` (1-based), `srt_entry` in the source. -/
def srtEntry (i : Nat) (c : CaptionRecord) : String :=
  pyShowNat i ++ "\n" ++ format_time c.start_time ++ " --> " ++ format_time c.end_time
    ++ "\n" ++ c.text ++ "\n\n"

/-- The blocks of `enumerate(captions, i)`. -/
def srtEntries : Nat → List CaptionRecord → List String
  | _, [] => []
  | i, c :: cs => srtEntry i c :: srtEntries (i + 1) cs

/-- The function `convert_to_srt`. -/
def convert_to_srt (captions : List CaptionRecord) : String :=
  String.join (srtEntries 1 captions)

/-! ## Arithmetic bridge lemmas -/

theorem pyTrunc_intCast (n : ℤ) : pyTrunc (n : ℚ) = n := by
  unfold pyTrunc
  split
  · exact Int.floor_intCast n
  · rw [← Int.cast_neg, Int.floor_intCast]; ring

theorem pyTrunc_nonneg {q : ℚ} (h : 0 ≤ q) : pyTrunc q = ⌊q⌋ := if_pos h

theorem pyTrunc_pyFloorDiv (a b : ℚ) : pyTrunc (pyFloorDiv a b) = ⌊a / b⌋ :=
  pyTrunc_intCast _

theorem pyMod_eq_mul_fract {b : ℚ} (a : ℚ) (hb : b ≠ 0) :
    pyMod a b = b * Int.fract (a / b) := by
  rw [pyMod, Int.fract, mul_sub, mul_div_cancel₀ a hb]

theorem pyMod_nonneg {b : ℚ} (a : ℚ) (hb : 0 < b) : 0 ≤ pyMod a b := by
  rw [pyMod_eq_mul_fract a hb.ne']
  exact mul_nonneg hb.le (Int.fract_nonneg _)

theorem pyMod_lt {b : ℚ} (a : ℚ) (hb : 0 < b) : pyMod a b < b := by
  rw [pyMod_eq_mul_fract a hb.ne']
  calc b * Int.fract (a / b) < b * 1 := mul_lt_mul_of_pos_left (Int.fract_lt_one _) hb
    _ = b := mul_one b

/-! ## Shape of `format_time` -/

theorem format_time_eq (t : ℚ) :
    format_time t =
      pyZeroPad 2 (pyTrunc (pyFloorDiv t 3600)) ++ ":"
        ++ pyZeroPad 2 (pyTrunc (pyFloorDiv (pyMod t 3600) 60)) ++ ":"
        ++ pyZeroPad 2 (pyTrunc (pyMod t 60)) ++ ","
        ++ pyZeroPad 3 (pyTrunc ((t - (pyTrunc t : ℚ)) * 1000)) := rfl

theorem format_time_floor_form {t : ℚ} (ht : 0 ≤ t) :
    format_time t =
      pyZeroPad 2 ⌊t / 3600⌋ ++ ":"
        ++ pyZeroPad 2 ⌊(t - 3600 * (⌊t / 3600⌋ : ℚ)) / 60⌋ ++ ":"
        ++ pyZeroPad 2 ⌊t - 60 * (⌊t / 60⌋ : ℚ)⌋ ++ ","
        ++ pyZeroPad 3 ⌊(t - (⌊t⌋ : ℚ)) * 1000⌋ := by
  rw [format_time_eq, pyTrunc_pyFloorDiv, pyTrunc_pyFloorDiv,
    pyTrunc_nonneg (pyMod_nonneg t (by norm_num : (0:ℚ) < 60)),
    pyTrunc_nonneg ht, pyMod, pyMod,
    pyTrunc_nonneg (mul_nonneg (by rw [Int.self_sub_floor]; exact Int.fract_nonneg t)
      (by norm_num) : (0:ℚ) ≤ (t - (⌊t⌋ : ℚ)) * 1000)]

theorem pyNatDigits_length_le :
    ∀ (f n k : Nat), n < f → n < 10 ^ (k + 1) → (pyNatDigits f n).length ≤ k + 1 := by
  intro f
  induction f with
  | zero => intro n k h; omega
  | succ f ih =>
    intro n k hf hk
    rw [pyNatDigits]
    split
    · simp
    · next hn =>
      match k with
      | 0 => exact absurd hk hn
      | k + 1 =>
        rw [List.length_append, List.length_singleton]
        have h1 : n / 10 < f := by
          have := Nat.div_lt_self (by omega : 0 < n) (by omega : 1 < 10)
          omega
        have h2 : n / 10 < 10 ^ (k + 1) := by
          rw [Nat.div_lt_iff_lt_mul (by omega : 0 < 10)]
          calc n < 10 ^ (k + 2) := hk
            _ = 10 ^ (k + 1) * 10 := by ring
        have := ih (n / 10) k h1 h2
        omega

theorem pyZeroPad_length {w : Nat} {n : ℤ} (h0 : 0 ≤ n) (h : n.toNat < 10 ^ w) (hw : 1 ≤ w) :
    (pyZeroPad w n).length = w := by
  rw [pyZeroPad, if_neg (by omega)]
  show (List.replicate (w - (pyNatDigits (n.toNat + 1) n.toNat).length) '0'
    ++ pyNatDigits (n.toNat + 1) n.toNat).length = w
  rw [List.length_append, List.length_replicate]
  have hle : (pyNatDigits (n.toNat + 1) n.toNat).length ≤ w := by
    have h10 : 10 ^ ((w - 1) + 1) = 10 ^ w := by congr 1; omega
    have := pyNatDigits_length_le (n.toNat + 1) n.toNat (w - 1) (by omega) (by omega)
    omega
  omega

theorem format_time_length {t : ℚ} (ht : 0 ≤ t) (hlt : t < 360000) :
    (format_time t).length = 12 := by
  rw [format_time_floor_form ht]
  have hH0 : (0:ℤ) ≤ ⌊t / 3600⌋ := Int.le_floor.2 (by positivity)
  have hH : ⌊t / 3600⌋ < 100 := Int.floor_lt.2 (by
    rw [div_lt_iff₀ (by norm_num : (0:ℚ) < 3600)]
    push_cast
    linarith)
  have hM0 : (0:ℤ) ≤ ⌊(t - 3600 * (⌊t / 3600⌋ : ℚ)) / 60⌋ := by
    have := pyMod_nonneg t (by norm_num : (0:ℚ) < 3600)
    rw [pyMod] at this
    exact Int.le_floor.2 (by positivity)
  have hM : ⌊(t - 3600 * (⌊t / 3600⌋ : ℚ)) / 60⌋ < 60 := by
    have := pyMod_lt t (by norm_num : (0:ℚ) < 3600)
    rw [pyMod] at this
    exact Int.floor_lt.2 (by
      rw [div_lt_iff₀ (by norm_num : (0:ℚ) < 60)]
      push_cast
      linarith)
  have hS0 : (0:ℤ) ≤ ⌊t - 60 * (⌊t / 60⌋ : ℚ)⌋ := by
    have := pyMod_nonneg t (by norm_num : (0:ℚ) < 60)
    rw [pyMod] at this
    exact Int.le_floor.2 (by exact_mod_cast this)
  have hS : ⌊t - 60 * (⌊t / 60⌋ : ℚ)⌋ < 60 := by
    have := pyMod_lt t (by norm_num : (0:ℚ) < 60)
    rw [pyMod] at this
    exact Int.floor_lt.2 (by push_cast; linarith)
  have hMs0 : (0:ℤ) ≤ ⌊(t - (⌊t⌋ : ℚ)) * 1000⌋ := by
    have := Int.fract_nonneg t
    rw [Int.fract] at this
    exact Int.le_floor.2 (by push_cast; nlinarith)
  have hMs : ⌊(t - (⌊t⌋ : ℚ)) * 1000⌋ < 1000 := by
    have := Int.fract_lt_one t
    rw [Int.fract] at this
    exact Int.floor_lt.2 (by push_cast; nlinarith)
  rw [String.length_append, String.length_append, String.length_append,
    String.length_append, String.length_append, String.length_append]
  rw [pyZeroPad_length hH0 (by omega) (by omega),
    pyZeroPad_length hM0 (by omega) (by omega),
    pyZeroPad_length hS0 (by omega) (by omega),
    pyZeroPad_length hMs0 (by omega) (by omega)]
  rfl

/-! ## Parser plumbing lemmas -/

theorem parseCue_def (e : XmlElement) :
    parseCue e =
      match cueStartMs e with
      | .error err => .error err
      | .ok tn =>
        match cueDurMs e with
        | .error err => .error err
        | .ok dn =>
          if cueFullText e = "" then .ok none
          else .ok (some ⟨(tn : ℚ) / 1000, (tn : ℚ) / 1000 + (dn : ℚ) / 1000, cueFullText e⟩) := by
  rw [parseCue]
  cases cueStartMs e <;> cases cueDurMs e <;>
    simp [Except.bind, bind, pure, Except.pure]

theorem parseCue_ok_none {e : XmlElement} {tn dn : ℤ}
    (ht : cueStartMs e = .ok tn) (hd : cueDurMs e = .ok dn)
    (hF : cueFullText e = "") : parseCue e = .ok none := by
  rw [parseCue_def, ht, hd]
  simp [hF]

theorem parseCues_cons_error {e : XmlElement} {err : MalformedInputError}
    (h : parseCue e = .error err) (es : List XmlElement) :
    parseCues (e :: es) = .error err := by
  simp [parseCues, h, Except.bind, bind]

theorem parseCues_cons_ok_none {e : XmlElement}
    (h : parseCue e = .ok none) (es : List XmlElement) :
    parseCues (e :: es) = parseCues es := by
  simp only [parseCues, h, Except.bind, bind]
  cases parseCues es <;> rfl

theorem parseCues_cons_ok_some {e : XmlElement} {c : CaptionRecord}
    (h : parseCue e = .ok (some c)) (es : List XmlElement) :
    parseCues (e :: es) = (parseCues es).map (c :: ·) := by
  simp only [parseCues, h, Except.bind, bind]
  cases parseCues es <;> rfl

theorem parseCues_middle_none {e : XmlElement} (h : parseCue e = .ok none) :
    ∀ pre post : List XmlElement, parseCues (pre ++ e :: post) = parseCues (pre ++ post) := by
  intro pre post
  induction pre with
  | nil => simpa using parseCues_cons_ok_none h post
  | cons a pre ih =>
    simp only [List.cons_append, parseCues, List.append_eq, ih]

theorem parseCues_error_of_mem {e : XmlElement} {l : List XmlElement}
    (h : parseCue e = .error .malformed) (hm : e ∈ l) :
    parseCues l = .error .malformed := by
  induction l with
  | nil => cases hm
  | cons a l ih =>
    rcases List.mem_cons.1 hm with rfl | hm'
    · exact parseCues_cons_error h l
    · cases ha : parseCue a with
      | error err => cases err; exact parseCues_cons_error ha l
      | ok r =>
        cases r with
        | none => rw [parseCues_cons_ok_none ha, ih hm']
        | some c => rw [parseCues_cons_ok_some ha, ih hm']; rfl

theorem parseCues_mem_inv {l : List XmlElement} {recs : List CaptionRecord}
    (h : parseCues l = .ok recs) {r : CaptionRecord} (hr : r ∈ recs) :
    ∃ e ∈ l, parseCue e = .ok (some r) := by
  induction l generalizing recs with
  | nil =>
    simp only [parseCues] at h
    cases h
    cases hr
  | cons a l ih =>
    cases ha : parseCue a with
    | error err => rw [parseCues_cons_error ha] at h; cases h
    | ok o =>
      cases o with
      | none =>
        rw [parseCues_cons_ok_none ha] at h
        obtain ⟨e, he, hpe⟩ := ih h hr
        exact ⟨e, List.mem_cons_of_mem a he, hpe⟩
      | some c =>
        rw [parseCues_cons_ok_some ha] at h
        cases hl : parseCues l with
        | error err => rw [hl] at h; cases h
        | ok rest =>
          rw [hl] at h
          cases h
          rcases List.mem_cons.1 hr with rfl | hr'
          · exact ⟨a, List.mem_cons_self a l, ha⟩
          · obtain ⟨e, he, hpe⟩ := ih hl hr'
            exact ⟨e, List.mem_cons_of_mem a he, hpe⟩

/-- The record a cue contributes (`none` when discarded or failing). -/
def keptRecord (e : XmlElement) : Option CaptionRecord :=
  match parseCue e with
  | .ok r => r
  | .error _ => none

theorem parseCues_filterMap {l : List XmlElement} {recs : List CaptionRecord}
    (h : parseCues l = .ok recs) : recs = l.filterMap keptRecord := by
  induction l generalizing recs with
  | nil => simp only [parseCues] at h; cases h; rfl
  | cons a l ih =>
    cases ha : parseCue a with
    | error err => rw [parseCues_cons_error ha] at h; cases h
    | ok o =>
      cases o with
      | none =>
        rw [parseCues_cons_ok_none ha] at h
        rw [List.filterMap_cons]
        simp only [keptRecord, ha]
        exact ih h
      | some c =>
        rw [parseCues_cons_ok_some ha] at h
        cases hl : parseCues l with
        | error err => rw [hl] at h; cases h
        | ok rest =>
          rw [hl] at h
          cases h
          rw [List.filterMap_cons]
          simp only [keptRecord, ha]
          rw [ih hl]

/-! ## Text-joining lemmas -/

theorem pyJoinSpace_all_space :
    ∀ parts : List String, (∀ p ∈ parts, p = "") →
      ∀ c ∈ (pyJoinSpace parts).data, isPySpace c = true := by
  intro parts
  induction parts with
  | nil => intro _ c hc; cases hc
  | cons s rest ih =>
    intro h c hc
    cases rest with
    | nil =>
      rw [pyJoinSpace, h s (List.mem_cons_self s [])] at hc
      cases hc
    | cons r rs =>
      have hc2 : c ∈ (s ++ " " ++ pyJoinSpace (r :: rs)).data := hc
      have hs : s = "" := h s (List.mem_cons_self _ _)
      rw [hs] at hc2
      have heq : ("" ++ " " ++ pyJoinSpace (r :: rs)).data
          = ' ' :: (pyJoinSpace (r :: rs)).data := rfl
      rw [heq] at hc2
      rcases List.mem_cons.1 hc2 with rfl | hc'
      · rfl
      · exact ih (fun p hp => h p (List.mem_cons_of_mem s hp)) c hc'

theorem pyStrip_all_space {s : String} (h : ∀ c ∈ s.data, isPySpace c = true) :
    pyStrip s = "" := by
  rw [pyStrip, pyStripList, List.dropWhile_eq_nil_iff.mpr h]
  rfl

theorem cueFullText_empty {e : XmlElement} (h : ∀ p ∈ cueTextParts e, p = "") :
    cueFullText e = "" :=
  pyStrip_all_space (pyJoinSpace_all_space _ h)

/-! ## Renderer structure lemmas -/

theorem string_join_cons (a : String) (l : List String) :
    String.join (a :: l) = a ++ String.join l := by
  have key : ∀ (m : List String) (s : String), m.foldl (· ++ ·) s = s ++ m.foldl (· ++ ·) "" := by
    intro m
    induction m with
    | nil => intro s; rw [List.foldl_nil, List.foldl_nil]; exact (String.append_empty s).symm
    | cons b m ih =>
      intro s
      rw [List.foldl_cons, List.foldl_cons, ih (s ++ b), ih ("" ++ b),
        String.append_assoc]
      rfl
  show (a :: l).foldl (· ++ ·) "" = a ++ l.foldl (· ++ ·) ""
  rw [List.foldl_cons, key l ("" ++ a)]
  rfl

theorem srtEntries_length (i : Nat) (l : List CaptionRecord) :
    (srtEntries i l).length = l.length := by
  induction l generalizing i with
  | nil => rfl
  | cons c cs ih => simp only [srtEntries, List.length_cons, ih]

theorem srtEntries_getD (i : Nat) (l : List CaptionRecord) (j : Nat) (h : j < l.length) :
    (srtEntries i l).getD j "" = srtEntry (i + j) (l.getD j ⟨0, 0, ""⟩) := by
  induction l generalizing i j with
  | nil => cases h
  | cons c cs ih =>
    cases j with
    | zero => rfl
    | succ j =>
      have hj : j < cs.length := by simpa using h
      show (srtEntries (i + 1) cs).getD j "" = _
      rw [ih (i + 1) j hj]
      congr 1
      omega

theorem convert_to_srt_cons (c : CaptionRecord) (cs : List CaptionRecord) :
    convert_to_srt (c :: cs) = srtEntry 1 c ++ String.join (srtEntries 2 cs) := by
  rw [convert_to_srt]
  show String.join (srtEntry 1 c :: srtEntries 2 cs) = _
  rw [string_join_cons]

/-! ## Dependency (congruence) lemmas for the text extraction -/

theorem filter_map_tagtext_congr :
    ∀ l1 l2 : List XmlElement,
      l1.map (fun c => (c.tag, c.text)) = l2.map (fun c => (c.tag, c.text)) →
      (l1.filter (fun c => c.tag == "s")).map (fun s => pyStrip (s.text.getD ""))
        = (l2.filter (fun c => c.tag == "s")).map (fun s => pyStrip (s.text.getD "")) := by
  intro l1
  induction l1 with
  | nil =>
    intro l2 h
    have : l2 = [] := by
      cases l2 with
      | nil => rfl
      | cons b bs => simp at h
    rw [this]
  | cons a as ih =>
    intro l2 h
    cases l2 with
    | nil => simp at h
    | cons b bs =>
      simp only [List.map_cons, List.cons.injEq, Prod.mk.injEq] at h
      obtain ⟨⟨htag, htext⟩, hrest⟩ := h
      rw [List.filter_cons, List.filter_cons, htag]
      by_cases hb : b.tag == "s"
      · rw [if_pos hb, if_pos hb, List.map_cons, List.map_cons, htext, ih bs hrest]
      · rw [if_neg hb, if_neg hb]
        exact ih bs hrest

theorem cueTextParts_congr {e1 e2 : XmlElement}
    (h : e1.children.map (fun c => (c.tag, c.text)) = e2.children.map (fun c => (c.tag, c.text))) :
    cueTextParts e1 = cueTextParts e2 :=
  filter_map_tagtext_congr e1.children e2.children h

theorem parseCue_congr {e1 e2 : XmlElement} (ha : e1.attrs = e2.attrs)
    (hc : e1.children.map (fun c => (c.tag, c.text)) = e2.children.map (fun c => (c.tag, c.text))) :
    parseCue e1 = parseCue e2 := by
  have hget : ∀ k, e1.get k = e2.get k := by
    intro k
    rw [XmlElement.get, XmlElement.get, ha]
  have hst : cueStartMs e1 = cueStartMs e2 := by
    rw [cueStartMs, cueStartMs, hget "t"]
  have hd : cueDurMs e1 = cueDurMs e2 := by
    rw [cueDurMs, cueDurMs, hget "d"]
  have hft : cueFullText e1 = cueFullText e2 := by
    rw [cueFullText, cueFullText, cueTextParts_congr hc]
  rw [parseCue_def, parseCue_def, hst, hd, hft]

theorem ft_three_halves : format_time (3 / 2 : ℚ) = "00:00:01,500" := by
  have h1 : ⌊(3 / 2 : ℚ) / 3600⌋ = 0 := by norm_num [Int.floor_eq_iff]
  have h2 : ⌊(3 / 2 : ℚ) / 60⌋ = 0 := by norm_num [Int.floor_eq_iff]
  have h3 : ⌊(3 / 2 : ℚ)⌋ = 1 := by norm_num [Int.floor_eq_iff]
  have hmodA : pyMod (3 / 2 : ℚ) 3600 = 3 / 2 := by rw [pyMod, h1]; norm_num
  have hmodB : pyMod (3 / 2 : ℚ) 60 = 3 / 2 := by rw [pyMod, h2]; norm_num
  have hA : pyTrunc (pyFloorDiv (3 / 2 : ℚ) 3600) = 0 := by
    rw [pyTrunc_pyFloorDiv, h1]
  have hB : pyTrunc (pyFloorDiv (pyMod (3 / 2 : ℚ) 3600) 60) = 0 := by
    rw [hmodA, pyTrunc_pyFloorDiv, h2]
  have hC : pyTrunc (pyMod (3 / 2 : ℚ) 60) = 1 := by
    rw [hmodB, pyTrunc_nonneg (by norm_num), h3]
  have hT : pyTrunc (3 / 2 : ℚ) = 1 := by rw [pyTrunc_nonneg (by norm_num), h3]
  have hD : pyTrunc (((3 / 2 : ℚ) - (pyTrunc (3 / 2 : ℚ) : ℚ)) * 1000) = 500 := by
    rw [hT]
    have : ((3 / 2 : ℚ) - ((1 : ℤ) : ℚ)) * 1000 = 500 := by norm_num
    rw [this, pyTrunc_nonneg (by norm_num)]
    norm_num [Int.floor_eq_iff]
  rw [format_time_eq, hA, hB, hC, hD]
  rfl

theorem ft_four : format_time (4 : ℚ) = "00:00:04,000" := by
  have h1 : ⌊(4 : ℚ) / 3600⌋ = 0 := by norm_num [Int.floor_eq_iff]
  have h2 : ⌊(4 : ℚ) / 60⌋ = 0 := by norm_num [Int.floor_eq_iff]
  have h3 : ⌊(4 : ℚ)⌋ = 4 := by norm_num [Int.floor_eq_iff]
  have hmodA : pyMod (4 : ℚ) 3600 = 4 := by rw [pyMod, h1]; norm_num
  have hmodB : pyMod (4 : ℚ) 60 = 4 := by rw [pyMod, h2]; norm_num
  have hA : pyTrunc (pyFloorDiv (4 : ℚ) 3600) = 0 := by rw [pyTrunc_pyFloorDiv, h1]
  have hB : pyTrunc (pyFloorDiv (pyMod (4 : ℚ) 3600) 60) = 0 := by
    rw [hmodA, pyTrunc_pyFloorDiv, h2]
  have hC : pyTrunc (pyMod (4 : ℚ) 60) = 4 := by
    rw [hmodB, pyTrunc_nonneg (by norm_num), h3]
  have hT : pyTrunc (4 : ℚ) = 4 := by rw [pyTrunc_nonneg (by norm_num), h3]
  have hD : pyTrunc (((4 : ℚ) - (pyTrunc (4 : ℚ) : ℚ)) * 1000) = 0 := by
    rw [hT]
    have : ((4 : ℚ) - ((4 : ℤ) : ℚ)) * 1000 = 0 := by norm_num
    rw [this, pyTrunc_nonneg (by norm_num)]
    norm_num
  rw [format_time_eq, hA, hB, hC, hD]
  rfl

theorem srt_one_record :
    convert_to_srt [⟨3 / 2, 4, "Test line"⟩] =
      "1\n00:00:01,500 --> 00:00:04,000\nTest line\n\n" := by
  show String.join [srtEntry 1 ⟨3 / 2, 4, "Test line"⟩] = _
  rw [String.join, List.foldl, srtEntry]
  show "" ++ (pyShowNat 1 ++ "\n" ++ format_time (3 / 2) ++ " --> " ++ format_time 4
    ++ "\n" ++ "Test line" ++ "\n\n") = _
  rw [ft_three_halves, ft_four]
  rfl

/-! ## Search characterization -/

theorem findTagList_eq_filter (tag : String) (l : List XmlElement) :
    findTagList tag l = (descendantsL l).filter (fun e => e.tag == tag) := by
  induction l using findTagList.induct tag with
  | case1 => simp [findTagList, descendantsL]
  | case2 t a tx ch tl cs ih1 ih2 =>
    simp [findTagList, descendantsL, ih1, ih2, List.filter_append]
    by_cases h : t = tag <;> simp [h, List.filter_cons]

theorem parseCue_ok_some_inv {e : XmlElement} {r : CaptionRecord}
    (h : parseCue e = .ok (some r)) :
    ∃ tn dn : ℤ, cueStartMs e = .ok tn ∧ cueDurMs e = .ok dn ∧ cueFullText e ≠ ""
      ∧ r = ⟨(tn : ℚ) / 1000, (tn : ℚ) / 1000 + (dn : ℚ) / 1000, cueFullText e⟩ := by
  rw [parseCue_def] at h
  split at h
  · exact absurd h (by simp)
  · rename_i tn hst
    split at h
    · exact absurd h (by simp)
    · rename_i dn hd
      split at h
      · exact absurd h (by simp)
      · rename_i hF
        cases h
        exact ⟨tn, dn, hst, hd, hF, rfl⟩

/-! ## Claim-specific concrete documents -/

def c1cue : XmlElement :=
  ⟨"p", [("t", "1500"), ("d", "2500")], none, [⟨"s", [], some "Test line", [], none⟩], none⟩

def c1doc : XmlElement := ⟨"timedtext", [], none, [c1cue], none⟩

/-- C1: parsing a document holding one cue `t="1500" d="2500"` with a single
segment `"Test line"` yields exactly the record (start 1.5 s, end 4.0 s,
text "Test line"), and rendering that one-record document yields exactly the
block "1\n00:00:01,500 --> 00:00:04,000\nTest line\n\n". -/
theorem c1_concrete_scenario :
    parse_youtube_xml_captions c1doc = .ok [⟨3 / 2, 4, "Test line"⟩]
    ∧ convert_to_srt [⟨3 / 2, 4, "Test line"⟩]
        = "1\n00:00:01,500 --> 00:00:04,000\nTest line\n\n" := by
  constructor
  · have hfind : findTagList "p" c1doc.children = [c1cue] := by
      simp [findTagList, c1doc, c1cue]
    have hcue : parseCue c1cue =
        .ok (some ⟨((1500 : ℤ) : ℚ) / 1000, ((1500 : ℤ) : ℚ) / 1000 + ((2500 : ℤ) : ℚ) / 1000,
          "Test line"⟩) := rfl
    rw [parse_youtube_xml_captions, hfind]
    simp only [parseCues, hcue]
    simp only [Except.bind, bind, pure, Except.pure]
    norm_num [CaptionRecord.mk.injEq]
  · exact srt_one_record

def c6doc : XmlElement := ⟨"timedtext", [], none, [⟨"body", [], none, [], none⟩], none⟩

/-- C6: a document with no cue elements parses to the empty record list, and
rendering the empty list yields the empty string. -/
theorem c6_empty_document (root : XmlElement) (h : findTagList "p" root.children = []) :
    parse_youtube_xml_captions root = .ok [] ∧ convert_to_srt [] = "" :=
  ⟨by rw [parse_youtube_xml_captions, h]; rfl, rfl⟩

/-- Witness for C6 at a concrete cue-free document. -/
theorem c6_witness : parse_youtube_xml_captions c6doc = .ok [] ∧ convert_to_srt [] = "" :=
  c6_empty_document c6doc (by simp [findTagList, c6doc])

/-- C8: the renderer is a pure function of the record list - rendering the
same document again gives the identical string, and every render numbers its
first block 1 (no counter carried over from earlier calls). -/
theorem c8_render_pure (d : List CaptionRecord) :
    convert_to_srt d = convert_to_srt d
    ∧ (∀ c cs, d = c :: cs →
        convert_to_srt d = srtEntry 1 c ++ String.join (srtEntries 2 cs)) :=
  ⟨rfl, fun c cs h => by rw [h, convert_to_srt_cons]⟩

/-- Witness for C8 at a concrete one-record document. -/
theorem c8_witness :
    convert_to_srt [⟨3 / 2, 4, "Test line"⟩]
      = srtEntry 1 ⟨3 / 2, 4, "Test line"⟩ ++ String.join (srtEntries 2 []) :=
  (c8_render_pure [⟨3 / 2, 4, "Test line"⟩]).2 ⟨3 / 2, 4, "Test line"⟩ [] rfl

/-- C9: the cue search returns exactly the elements tagged `p` at any depth,
in document order, and a successful parse lists the kept records in that same
order (one per kept cue, no re-sorting). -/
theorem c9_depth_and_order :
    (∀ (tag : String) (l : List XmlElement),
      findTagList tag l = (descendantsL l).filter (fun e => e.tag == tag))
    ∧ (∀ (root : XmlElement) (recs : List CaptionRecord),
        parse_youtube_xml_captions root = .ok recs →
        recs = (findTagList "p" root.children).filterMap keptRecord) :=
  ⟨findTagList_eq_filter, fun _ _ h => parseCues_filterMap h⟩

def c9inner : XmlElement := ⟨"p", [("t", "1000")], none, [⟨"s", [], some "deep", [], none⟩], none⟩

def c9doc : XmlElement :=
  ⟨"timedtext", [], none, [⟨"body", [], none, [⟨"div", [], none, [c9inner], none⟩], none⟩], none⟩

/-- Witness for C9: a cue nested three levels deep is found and parsed. -/
theorem c9_witness :
    ([⟨1, 1, "deep"⟩] : List CaptionRecord)
      = (findTagList "p" c9doc.children).filterMap keptRecord := by
  have hfind : findTagList "p" c9doc.children = [c9inner] := by
    simp [findTagList, c9doc, c9inner]
  have hcue : parseCue c9inner =
      .ok (some ⟨((1000 : ℤ) : ℚ) / 1000, ((1000 : ℤ) : ℚ) / 1000 + ((0 : ℤ) : ℚ) / 1000,
        "deep"⟩) := rfl
  have hp : parse_youtube_xml_captions c9doc = .ok [⟨1, 1, "deep"⟩] := by
    rw [parse_youtube_xml_captions, hfind]
    simp only [parseCues, hcue]
    simp only [Except.bind, bind, pure, Except.pure]
    norm_num [CaptionRecord.mk.injEq]
  exact c9_depth_and_order.2 c9doc [⟨1, 1, "deep"⟩] hp

/-- C10: the record a cue yields depends only on the cue's attributes and on
the tag and leading text run of each direct child - text directly inside the
cue, tail text, and anything nested inside a segment's child elements never
reach the record. -/
theorem c10_only_segment_text (e1 e2 : XmlElement) (ha : e1.attrs = e2.attrs)
    (hc : e1.children.map (fun c => (c.tag, c.text))
        = e2.children.map (fun c => (c.tag, c.text))) :
    parseCue e1 = parseCue e2 :=
  parseCue_congr ha hc

def c10junk : XmlElement :=
  ⟨"p", [("t", "0")], some "stray cue text",
    [⟨"s", [], some "kept", [⟨"b", [], some "nested junk", [], some "inner tail"⟩],
      some "segment tail"⟩], some "cue tail"⟩

def c10clean : XmlElement := ⟨"p", [("t", "0")], none, [⟨"s", [], some "kept", [], none⟩], none⟩

/-- Witness for C10: stray cue text, tail text and markup nested inside the
segment do not change the parsed result. -/
theorem c10_witness : parseCue c10junk = parseCue c10clean :=
  c10_only_segment_text c10junk c10clean rfl rfl

/-! ## C2 -/

def c2cue : XmlElement :=
  ⟨"p", [("t", "0"), ("d", "")], none, [⟨"s", [], some "Hi", [], none⟩], none⟩

def c2doc : XmlElement := ⟨"timedtext", [], none, [c2cue], none⟩

/-- C2 counterexample: a cue whose duration attribute is present but holds
the empty string - a value `int()` cannot coerce - is parsed successfully
with duration silently substituted by 0, instead of raising
`MalformedInputError` as the claim demands. -/
theorem c2_counterexample :
    parse_youtube_xml_captions c2doc = .ok [⟨0, 0, "Hi"⟩]
    ∧ c2cue.get "d" = some "" ∧ pyInt "" = none := by
  refine ⟨?_, rfl, rfl⟩
  have hfind : findTagList "p" c2doc.children = [c2cue] := by
    simp [findTagList, c2doc, c2cue]
  have hcue : parseCue c2cue =
      .ok (some ⟨((0 : ℤ) : ℚ) / 1000, ((0 : ℤ) : ℚ) / 1000 + ((0 : ℤ) : ℚ) / 1000, "Hi"⟩) := rfl
  rw [parse_youtube_xml_captions, hfind]
  simp only [parseCues, hcue]
  simp only [Except.bind, bind, pure, Except.pure]
  norm_num [CaptionRecord.mk.injEq]

/-- C2 (amended): a present start-offset value that `int()` cannot coerce,
or a present, non-empty duration value that `int()` cannot coerce, makes
parse fail with `MalformedInputError`; the 0 default applies to an absent
start offset, and to a duration that is absent or the empty string. -/
theorem c2_malformed_attribute :
    (∀ root e, e ∈ findTagList "p" root.children →
      ((∃ v, e.get "t" = some v ∧ pyInt v = none) ∨
        (∃ v, e.get "d" = some v ∧ v ≠ "" ∧ pyInt v = none)) →
      parse_youtube_xml_captions root = .error .malformed)
    ∧ (∀ e : XmlElement, e.get "t" = none → cueStartMs e = .ok 0)
    ∧ (∀ e : XmlElement, e.get "d" = none ∨ e.get "d" = some "" → cueDurMs e = .ok 0) := by
  refine ⟨?_, ?_, ?_⟩
  · intro root e he hbad
    have herr : parseCue e = .error .malformed := by
      rcases hbad with ⟨v, hv, hpv⟩ | ⟨v, hv, hne, hpv⟩
      · have hst : cueStartMs e = .error .malformed := by
          rw [cueStartMs, hv]
          simp [hpv]
        rw [parseCue_def, hst]
      · cases hst : cueStartMs e with
        | error err => cases err; rw [parseCue_def, hst]
        | ok tn =>
          have hd : cueDurMs e = .error .malformed := by
            rw [cueDurMs, hv]
            simp [hne, hpv]
          rw [parseCue_def, hst, hd]
    exact parseCues_error_of_mem herr he
  · intro e h
    rw [cueStartMs, h]
  · intro e h
    rcases h with h | h
    · rw [cueDurMs, h]
    · rw [cueDurMs, h]
      rfl

def c2badcue : XmlElement := ⟨"p", [("t", "abc")], none, [⟨"s", [], some "x", [], none⟩], none⟩

def c2baddoc : XmlElement := ⟨"timedtext", [], none, [c2badcue], none⟩

/-- Witness for C2: a cue with `t="abc"` makes the whole parse fail. -/
theorem c2_witness : parse_youtube_xml_captions c2baddoc = .error .malformed :=
  c2_malformed_attribute.1 c2baddoc c2badcue (by simp [findTagList, c2baddoc, c2badcue])
    (Or.inl ⟨"abc", rfl, rfl⟩)

/-! ## C3 -/

/-- C3: a cue whose segment texts all trim to the empty string (including a
cue with no segments, represented by an empty part list) contributes no
record: the parse of the document equals the parse without that cue, so the
rendered SRT is identical, and in any rendering the blocks are numbered
densely 1..N over the kept records. -/
theorem c3_whitespace_cue_dropped (pre post : List XmlElement) (e : XmlElement)
    (hseg : ∀ p ∈ cueTextParts e, p = "")
    (tn dn : ℤ) (ht : cueStartMs e = .ok tn) (hd : cueDurMs e = .ok dn) :
    parseCue e = .ok none
    ∧ parseCues (pre ++ e :: post) = parseCues (pre ++ post)
    ∧ (∀ recs recs', parseCues (pre ++ e :: post) = .ok recs →
        parseCues (pre ++ post) = .ok recs' → convert_to_srt recs = convert_to_srt recs')
    ∧ (∀ recs : List CaptionRecord, (srtEntries 1 recs).length = recs.length
        ∧ ∀ j, j < recs.length →
          (srtEntries 1 recs).getD j "" = srtEntry (1 + j) (recs.getD j ⟨0, 0, ""⟩)) := by
  have hnone : parseCue e = .ok none :=
    parseCue_ok_none ht hd (cueFullText_empty hseg)
  have hmid := parseCues_middle_none hnone pre post
  refine ⟨hnone, hmid, ?_, ?_⟩
  · intro recs recs' h1 h2
    rw [hmid, h2] at h1
    cases h1
    rfl
  · intro recs
    exact ⟨srtEntries_length 1 recs, fun j hj => srtEntries_getD 1 recs j hj⟩

def c3cue : XmlElement :=
  ⟨"p", [("t", "1500")], none,
    [⟨"s", [], some "", [], none⟩, ⟨"s", [], some "  ", [], none⟩], none⟩

/-- Witness for C3: a cue with segment texts `""` and `"  "` is dropped. -/
theorem c3_witness : parseCues [c3cue] = parseCues [] :=
  (c3_whitespace_cue_dropped [] [] c3cue (by decide) 1500 0 rfl rfl).2.1

/-! ## C4 -/

/-- C4: for every non-negative time `t`, `format_time t` is the zero-padded
string `HH:MM:SS,mmm` with hours `⌊t/3600⌋`, minutes `⌊(t mod 3600)/60⌋`,
seconds `⌊t mod 60⌋` and milliseconds `⌊(t - ⌊t⌋)·1000⌋` (truncation, not
rounding), and below 100 hours the string is exactly 12 characters (the hour
field widens beyond that). -/
theorem c4_format_time_shape (t : ℚ) (ht : 0 ≤ t) :
    format_time t =
      pyZeroPad 2 ⌊t / 3600⌋ ++ ":"
        ++ pyZeroPad 2 ⌊(t - 3600 * (⌊t / 3600⌋ : ℚ)) / 60⌋ ++ ":"
        ++ pyZeroPad 2 ⌊t - 60 * (⌊t / 60⌋ : ℚ)⌋ ++ ","
        ++ pyZeroPad 3 ⌊(t - (⌊t⌋ : ℚ)) * 1000⌋
    ∧ (t < 360000 → (format_time t).length = 12) :=
  ⟨format_time_floor_form ht, fun h => format_time_length ht h⟩

/-- Witness for C4 at `t = 3/2`. -/
theorem c4_witness : (format_time (3 / 2 : ℚ)).length = 12 :=
  (c4_format_time_shape (3 / 2) (by norm_num)).2 (by norm_num)

/-! ## C5 -/

def c5cue : XmlElement :=
  ⟨"p", [("t", "-5000"), ("d", "-1000")], none, [⟨"s", [], some "Hi", [], none⟩], none⟩

def c5doc : XmlElement := ⟨"timedtext", [], none, [c5cue], none⟩

/-- C5 counterexample: the parser accepts negative timing attributes, so a
well-formed document can produce a record with a negative start time and an
end time before the start time, violating the claimed invariant. -/
theorem c5_counterexample :
    parse_youtube_xml_captions c5doc = .ok [⟨-5, -6, "Hi"⟩]
    ∧ ((-5 : ℚ) < 0 ∧ (-6 : ℚ) < -5) := by
  constructor
  · have hfind : findTagList "p" c5doc.children = [c5cue] := by
      simp [findTagList, c5doc, c5cue]
    have hcue : parseCue c5cue =
        .ok (some ⟨((-5000 : ℤ) : ℚ) / 1000, ((-5000 : ℤ) : ℚ) / 1000 + ((-1000 : ℤ) : ℚ) / 1000,
          "Hi"⟩) := rfl
    rw [parse_youtube_xml_captions, hfind]
    simp only [parseCues, hcue]
    simp only [Except.bind, bind, pure, Except.pure]
    norm_num [CaptionRecord.mk.injEq]
  · norm_num

/-- Whether every timing attribute of every cue of `root` coerces to a
non-negative number of milliseconds. -/
def nonnegTimingAttrs (root : XmlElement) : Prop :=
  ∀ e ∈ findTagList "p" root.children,
    (∀ n : ℤ, cueStartMs e = .ok n → 0 ≤ n) ∧ (∀ n : ℤ, cueDurMs e = .ok n → 0 ≤ n)

/-- C5 (amended): every record of a successful parse has non-empty text, and
when every timing attribute in the document is non-negative (the claim's
unstated assumption - the code accepts negative values as-is), its start time
is non-negative and its end time is at least its start time. -/
theorem c5_record_invariant (root : XmlElement) (recs : List CaptionRecord)
    (h : parse_youtube_xml_captions root = .ok recs) (r : CaptionRecord) (hr : r ∈ recs) :
    r.text ≠ ""
    ∧ (nonnegTimingAttrs root → 0 ≤ r.start_time ∧ r.start_time ≤ r.end_time) := by
  obtain ⟨e, he, hpe⟩ := parseCues_mem_inv h hr
  obtain ⟨tn, dn, hst, hd, hF, hrec⟩ := parseCue_ok_some_inv hpe
  constructor
  · rw [hrec]
    exact hF
  · intro hnn
    obtain ⟨hts, hds⟩ := hnn e he
    have htn : (0 : ℤ) ≤ tn := hts tn hst
    have hdn : (0 : ℤ) ≤ dn := hds dn hd
    rw [hrec]
    constructor
    · have : (0 : ℚ) ≤ (tn : ℚ) := by exact_mod_cast htn
      positivity
    · have : (0 : ℚ) ≤ (dn : ℚ) := by exact_mod_cast hdn
      have h1000 : (0 : ℚ) ≤ (dn : ℚ) / 1000 := by positivity
      show (tn : ℚ) / 1000 ≤ (tn : ℚ) / 1000 + (dn : ℚ) / 1000
      linarith

def c5okcue : XmlElement :=
  ⟨"p", [("t", "2000"), ("d", "500")], none, [⟨"s", [], some "x", [], none⟩], none⟩

def c5okdoc : XmlElement := ⟨"timedtext", [], none, [c5okcue], none⟩

/-- Witness for C5 (amended) at a concrete document with non-negative attributes. -/
theorem c5_witness :
    (⟨2, 5 / 2, "x"⟩ : CaptionRecord).text ≠ ""
    ∧ (nonnegTimingAttrs c5okdoc →
        0 ≤ (⟨2, 5 / 2, "x"⟩ : CaptionRecord).start_time
        ∧ (⟨2, 5 / 2, "x"⟩ : CaptionRecord).start_time
            ≤ (⟨2, 5 / 2, "x"⟩ : CaptionRecord).end_time) := by
  have hfind : findTagList "p" c5okdoc.children = [c5okcue] := by
    simp [findTagList, c5okdoc, c5okcue]
  have hcue : parseCue c5okcue =
      .ok (some ⟨((2000 : ℤ) : ℚ) / 1000, ((2000 : ℤ) : ℚ) / 1000 + ((500 : ℤ) : ℚ) / 1000,
        "x"⟩) := rfl
  have hp : parse_youtube_xml_captions c5okdoc = .ok [⟨2, 5 / 2, "x"⟩] := by
    rw [parse_youtube_xml_captions, hfind]
    simp only [parseCues, hcue]
    simp only [Except.bind, bind, pure, Except.pure]
    norm_num [CaptionRecord.mk.injEq]
  exact c5_record_invariant c5okdoc [⟨2, 5 / 2, "x"⟩] hp ⟨2, 5 / 2, "x"⟩
    (List.mem_singleton.2 rfl)

/-! ## C7 -/

def c7cue : XmlElement :=
  ⟨"p", [], none, [⟨"s", [], some "", [], none⟩, ⟨"s", [], some "x", [], none⟩], none⟩

def c7doc : XmlElement := ⟨"timedtext", [], none, [c7cue], none⟩

/-- C7 counterexample: for a cue with segment texts `""` and `"x"`, joining
the trimmed texts with a space gives `" x"`, but the emitted record's text is
`"x"` - the code also trims the joined result, which the claim omits. -/
theorem c7_counterexample :
    parse_youtube_xml_captions c7doc = .ok [⟨0, 0, "x"⟩]
    ∧ pyJoinSpace (cueTextParts c7cue) = " x"
    ∧ (" x" : String) ≠ "x" := by
  refine ⟨?_, rfl, by decide⟩
  have hfind : findTagList "p" c7doc.children = [c7cue] := by
    simp [findTagList, c7doc, c7cue]
  have hcue : parseCue c7cue =
      .ok (some ⟨((0 : ℤ) : ℚ) / 1000, ((0 : ℤ) : ℚ) / 1000 + ((0 : ℤ) : ℚ) / 1000, "x"⟩) := rfl
  rw [parse_youtube_xml_captions, hfind]
  simp only [parseCues, hcue]
  simp only [Except.bind, bind, pure, Except.pure]
  norm_num [CaptionRecord.mk.injEq]

def c7hellocue : XmlElement :=
  ⟨"p", [], none,
    [⟨"s", [], some "Hello", [], none⟩, ⟨"s", [], some "  world  ", [], none⟩], none⟩

def c7hellodoc : XmlElement := ⟨"timedtext", [], none, [c7hellocue], none⟩

/-- C7 (amended): every emitted record's text is the segment texts of the
cue's direct `s`-children, each trimmed, joined with a single space, with the
joined result trimmed once more; in particular segment texts `"Hello"` and
`"  world  "` yield `"Hello world"`. -/
theorem c7_text_join :
    (∀ (e : XmlElement) (r : CaptionRecord), parseCue e = .ok (some r) →
      r.text = pyStrip (pyJoinSpace
        ((e.children.filter (fun c => c.tag == "s")).map (fun s => pyStrip (s.text.getD "")))))
    ∧ parse_youtube_xml_captions c7hellodoc = .ok [⟨0, 0, "Hello world"⟩] := by
  constructor
  · intro e r h
    obtain ⟨tn, dn, _, _, _, hrec⟩ := parseCue_ok_some_inv h
    rw [hrec]
    rfl
  · have hfind : findTagList "p" c7hellodoc.children = [c7hellocue] := by
      simp [findTagList, c7hellodoc, c7hellocue]
    have hcue : parseCue c7hellocue =
        .ok (some ⟨((0 : ℤ) : ℚ) / 1000, ((0 : ℤ) : ℚ) / 1000 + ((0 : ℤ) : ℚ) / 1000,
          "Hello world"⟩) := rfl
    rw [parse_youtube_xml_captions, hfind]
    simp only [parseCues, hcue]
    simp only [Except.bind, bind, pure, Except.pure]
    norm_num [CaptionRecord.mk.injEq]

/-- Witness for C7 (amended) at the `"Hello"` / `"  world  "` cue. -/
theorem c7_witness :
    (⟨0, 0, "Hello world"⟩ : CaptionRecord).text
      = pyStrip (pyJoinSpace
        ((c7hellocue.children.filter (fun c => c.tag == "s")).map
          (fun s => pyStrip (s.text.getD "")))) := by
  have hcue : parseCue c7hellocue =
      .ok (some ⟨((0 : ℤ) : ℚ) / 1000, ((0 : ℤ) : ℚ) / 1000 + ((0 : ℤ) : ℚ) / 1000,
        "Hello world"⟩) := rfl
  refine c7_text_join.1 c7hellocue ⟨0, 0, "Hello world"⟩ ?_
  rw [hcue]
  norm_num [CaptionRecord.mk.injEq]
